import Mathlib

/-!
Verification of the rendering / formatting pipeline of the pingcode-mcp
server (src/tools/work-items.ts and the PRIORITY_MAP constant of
src/api/pingcode-client.ts), via a shallow embedding of the relevant
functions.  Strings are modelled as Lean `String`s (lists of characters);
the JavaScript regex passes of `stripHtml` are modelled as left-to-right
scanners that mirror the leftmost-match / greedy semantics of each concrete
regex; loosely-typed JS objects are modelled with optional fields, and JS
truthiness of strings (`"" ` and `undefined` falsy) and of numbers
(`0` and `undefined` falsy) is modelled explicitly.
-/

set_option maxHeartbeats 2000000
set_option maxRecDepth 100000

namespace PingcodeMcp

/-! ### JS string helpers: truthiness, `||` chains, template interpolation -/

/-- JS truthiness of an optional string: `undefined`/missing and `""` are falsy. -/
def strTruthy : Option String → Bool
  | some s => s ≠ ""
  | none => false

/-- `x || d` for an optional string `x` and a default `d` (JS short-circuit or). -/
def jsOrS (o : Option String) (d : String) : String :=
  match o with
  | some s => if s = "" then d else s
  | none => d

/-- Template-literal interpolation of a possibly-undefined string
(JS renders the literal text `undefined`). -/
def jsStr : Option String → String
  | some s => s
  | none => "undefined"

/-- JS truthiness of an optional number: `undefined` and `0` are falsy. -/
def intTruthy : Option Int → Bool
  | some t => t ≠ 0
  | none => false

/-! ### The `stripHtml` sanitizer (work-items.ts lines 35-49)

Each `.replace(regex, ...)` pass is modelled by a scanner `scanGo` driven by
a matcher for that concrete regex.  The scanner carries fuel; every matcher
consumes at least one character, so fuel equal to the input length (what the
pass wrappers supply) is always enough and the fuel-exhausted branch, which
returns the rest unchanged, is never taken on those calls. -/

/-- The JS `\s` / `trim` whitespace class (ASCII whitespace, NBSP, BOM). -/
def isJsSpace (c : Char) : Bool :=
  c = ' ' || c = '\t' || c = '\n' || c = '\r' ||
  c = Char.ofNat 11 || c = Char.ofNat 12 || c = Char.ofNat 0xA0 || c = Char.ofNat 0xFEFF

/-- Literal list-of-characters match at the front of the input. -/
def lpre : List Char → List Char → Bool
  | [], _ => true
  | _ :: _, [] => false
  | a :: as, b :: bs => if a = b then lpre as bs else false

/-- Number of leading newline characters. -/
def countNL : List Char → Nat
  | c :: r => if c = '\n' then countNL r + 1 else 0
  | [] => 0

/-- Whether three consecutive newline characters occur anywhere. -/
def hasTriple : List Char → Bool
  | a :: b :: c :: r => (a = '\n' && b = '\n' && c = '\n') || hasTriple (b :: c :: r)
  | _ => false

/-- Global-replace driver: at each position try the matcher; on a match
(`some (k, rep)` = consumed length and replacement) emit the replacement and
continue after the matched span, otherwise copy one character.  Mirrors
`String.prototype.replace` with a `/g` regex. -/
def scanGo (f : List Char → Option (Nat × List Char)) : Nat → List Char → List Char
  | 0, l => l
  | _ + 1, [] => []
  | n + 1, c :: r =>
    match f (c :: r) with
    | some (k, rep) => rep ++ scanGo f n (List.drop k (c :: r))
    | none => c :: scanGo f n r

/-- Matcher for a literal string pattern (used for the four entity decodes). -/
def matchStr (pat rep : List Char) (l : List Char) : Option (Nat × List Char) :=
  if lpre pat l then some (pat.length, rep) else none

/-- Try `src="([^"]*)"[^>]*>` at offset `k` after `<img` (offsets `< k` are
non-`>` characters, guaranteed by the caller).  Returns total consumed length
(from the `<` of `<img`) and the replacement `[图片](<src>)`. -/
def imgAt (rest : List Char) (k : Nat) : Option (Nat × List Char) :=
  match List.drop k rest with
  | c1 :: c2 :: c3 :: c4 :: c5 :: r2 =>
    if c1.toLower = 's' ∧ c2.toLower = 'r' ∧ c3.toLower = 'c' ∧ c4 = '=' ∧ c5 = '"' then
      let cap := List.takeWhile (fun c => c ≠ '"') r2
      match List.drop cap.length r2 with
      | '"' :: r3 =>
        let tl := List.takeWhile (fun c => c ≠ '>') r3
        match List.drop tl.length r3 with
        | '>' :: _ =>
          some (4 + k + 5 + cap.length + 1 + tl.length + 1, "[图片](".data ++ cap ++ [')'])
        | _ => none
      | _ => none
    else none
  | _ => none

/-- Backtracking for the greedy `[^>]*` before `src="`: try the largest
offset first, then smaller ones, exactly as the regex engine backtracks. -/
def imgBack (rest : List Char) : Nat → Option (Nat × List Char)
  | 0 => imgAt rest 0
  | k + 1 =>
    match imgAt rest (k + 1) with
    | some res => some res
    | none => imgBack rest k

/-- Matcher for `/<img[^>]*src="([^"]*)"[^>]*>/gi`. -/
def matchImg : List Char → Option (Nat × List Char)
  | c0 :: c1 :: c2 :: c3 :: rest =>
    if c0 = '<' ∧ c1.toLower = 'i' ∧ c2.toLower = 'm' ∧ c3.toLower = 'g' then
      imgBack rest (List.takeWhile (fun c => c ≠ '>') rest).length
    else none
  | _ => none

/-- Matcher for `/<br\s*\/?>/gi`. -/
def matchBr : List Char → Option (Nat × List Char)
  | c0 :: c1 :: c2 :: rest =>
    if c0 = '<' ∧ c1.toLower = 'b' ∧ c2.toLower = 'r' then
      let w := (List.takeWhile isJsSpace rest).length
      match List.drop w rest with
      | '/' :: '>' :: _ => some (3 + w + 2, ['\n'])
      | '>' :: _ => some (3 + w + 1, ['\n'])
      | _ => none
    else none
  | _ => none

/-- Matcher for `/<\/p>/gi`. -/
def matchPc : List Char → Option (Nat × List Char)
  | c0 :: c1 :: c2 :: c3 :: _ =>
    if c0 = '<' ∧ c1 = '/' ∧ c2.toLower = 'p' ∧ c3 = '>' then some (4, ['\n']) else none
  | _ => none

/-- Matcher for `/<[^>]+>/g`. -/
def matchTag : List Char → Option (Nat × List Char)
  | c0 :: rest =>
    if c0 = '<' then
      let k := (List.takeWhile (fun c => c ≠ '>') rest).length
      if k = 0 then none
      else
        match List.drop k rest with
        | '>' :: _ => some (1 + k + 1, [])
        | _ => none
    else none
  | [] => none

/-- Matcher for `/\n{3,}/g` (greedy: consumes the whole newline run). -/
def matchNl3 : List Char → Option (Nat × List Char)
  | a :: b :: c :: rest =>
    if a = '\n' ∧ b = '\n' ∧ c = '\n' then some (3 + countNL rest, ['\n', '\n']) else none
  | _ => none

def imgPass (l : List Char) : List Char := scanGo matchImg l.length l
def brPass (l : List Char) : List Char := scanGo matchBr l.length l
def pClosePass (l : List Char) : List Char := scanGo matchPc l.length l
def tagPass (l : List Char) : List Char := scanGo matchTag l.length l
def entPass (pat rep : String) (l : List Char) : List Char :=
  scanGo (matchStr pat.data rep.data) l.length l
def collapseNl (l : List Char) : List Char := scanGo matchNl3 l.length l

def trimLeft (l : List Char) : List Char := List.dropWhile isJsSpace l
def trimRight (l : List Char) : List Char := (List.dropWhile isJsSpace l.reverse).reverse

/-- JS `String.prototype.trim`. -/
def jsTrim (l : List Char) : List Char := trimRight (trimLeft l)

/-- `stripHtml` (work-items.ts lines 35-49): image extraction, `<br>`/`</p>`
to newline, tag stripping, the four entity decodes, newline collapsing, trim.
`if (!html) return ''` is the falsy check on the input string. -/
def stripHtml (html : String) : String :=
  if html = "" then ""
  else
    ⟨jsTrim (collapseNl (entPass "&amp;" "&" (entPass "&gt;" ">" (entPass "&lt;" "<"
      (entPass "&nbsp;" " " (tagPass (pClosePass (brPass (imgPass html.data)))))))))⟩

/-- JS `String.prototype.trim` on a `String`. -/
def trimStr (s : String) : String := ⟨jsTrim s.data⟩

/-! ### The rich-text block tree and its renderer
(work-items.ts lines 226-321) -/

/-- A node of the rich-text document tree.  All fields are optional,
mirroring the loosely typed JS objects: `type` distinguishes the block /
inline kinds, `children` distinguishes an absent list from a present
(possibly empty) one. -/
inductive Block where
  | node (type text url language content display_name : Option String)
         (children : Option (List Block))

def Block.type : Block → Option String | .node t _ _ _ _ _ _ => t
def Block.text : Block → Option String | .node _ t _ _ _ _ _ => t
def Block.url : Block → Option String | .node _ _ u _ _ _ _ => u
def Block.language : Block → Option String | .node _ _ _ l _ _ _ => l
def Block.content : Block → Option String | .node _ _ _ _ c _ _ => c
def Block.display_name : Block → Option String | .node _ _ _ _ _ d _ => d
def Block.children : Block → Option (List Block) | .node _ _ _ _ _ _ c => c

/-- `parseInlineElement` (work-items.ts lines 227-254).  The two top-level
equations split the JS `child.children` truthiness test (`undefined` falsy,
arrays including `[]` truthy) on the `children` field. -/
def parseInlineElement : Block → String
  | .node ty tx url _ _ dn none =>
    if strTruthy ty = false then jsOrS tx ""
    else if ty = some "link" then
      "[" ++ jsStr url ++ "](" ++ jsStr url ++ ")"
    else if ty = some "mention" then
      "@" ++ jsOrS dn (jsOrS tx "用户")
    else if ty = some "image" then
      "[图片](" ++ jsOrS url "" ++ ")"
    else jsOrS tx ""
  | .node ty tx url _ _ dn (some cs) =>
    if strTruthy ty = false then jsOrS tx ""
    else if ty = some "link" then
      let t := String.join (cs.map (fun c => jsOrS c.text ""))
      "[" ++ (if t = "" then jsStr url else t) ++ "](" ++ jsStr url ++ ")"
    else if ty = some "mention" then
      "@" ++ jsOrS dn (jsOrS tx "用户")
    else if ty = some "image" then
      "[图片](" ++ jsOrS url "" ++ ")"
    else String.join (cs.attach.map (fun c => parseInlineElement c.1))
termination_by b => sizeOf b
decreasing_by
  have h1 := List.sizeOf_lt_of_mem c.2
  simp only [Block.node.sizeOf_spec, Option.some.sizeOf_spec]
  omega

/-- Positional list-item marks: `- ` for a bulleted list, `N. ` (1-indexed)
for a numbered one. -/
def listMarks (numbered : Bool) (items : List String) : List String :=
  items.enum.map (fun p => (if numbered then toString (p.1 + 1) ++ ". " else "- ") ++ p.2)

/-- JS `String.prototype.split` with a single-character separator
(`"".split(sep)` is `[""]`). -/
def splitOnChar (sep : Char) : List Char → List (List Char)
  | [] => [[]]
  | c :: r =>
    if c = sep then [] :: splitOnChar sep r
    else
      match splitOnChar sep r with
      | h :: t => (c :: h) :: t
      | [] => [[c]]

/-- JS `s.split('\n')` on a `String`. -/
def jsSplitNl (s : String) : List String := (splitOnChar '\n' s.data).map (⟨·⟩)

/-- `parseBlockElement` (work-items.ts lines 256-314).  As for the inline
renderer, the two top-level equations split the `block.children` truthiness
test.  In the two list kinds, `item.children?.map(parseBlockElement).join('') || ''`
is modelled as a join over `children.getD []` (both an absent `children` and
an empty join yield `''`). -/
def parseBlockElement : Block → String
  | .node ty tx url lg ct _ none =>
    if strTruthy ty = false then jsOrS tx ""
    else if ty = some "paragraph" then ""
    else if ty = some "code" then
      "```" ++ jsOrS lg "" ++ "\n" ++ jsOrS ct "" ++ "\n```"
    else if ty = some "image" then
      "[图片](" ++ jsOrS url "" ++ ")"
    else if ty = some "blockquote" then ""
    else if ty = some "bulleted-list" ∨ ty = some "numbered-list" then ""
    else if ty = some "list-item" then ""
    else jsOrS tx (jsOrS ct "")
  | .node ty tx url lg ct _ (some cs) =>
    if strTruthy ty = false then jsOrS tx ""
    else if ty = some "paragraph" then
      String.join (cs.map parseInlineElement)
    else if ty = some "code" then
      "```" ++ jsOrS lg "" ++ "\n" ++ jsOrS ct "" ++ "\n```"
    else if ty = some "image" then
      "[图片](" ++ jsOrS url "" ++ ")"
    else if ty = some "blockquote" then
      String.intercalate "\n"
        ((jsSplitNl (String.intercalate "\n" (cs.attach.map (fun c => parseBlockElement c.1)))).map
          (fun line => "> " ++ line))
    else if ty = some "bulleted-list" ∨ ty = some "numbered-list" then
      String.intercalate "\n" (listMarks (ty = some "numbered-list")
        (cs.attach.map (fun it =>
          String.join ((it.1.children.getD []).attach.map (fun c => parseBlockElement c.1)))))
    else if ty = some "list-item" then
      String.join (cs.attach.map (fun c => parseBlockElement c.1))
    else String.join (cs.map parseInlineElement)
termination_by b => sizeOf b
decreasing_by
  all_goals first
    | (have h1 := List.sizeOf_lt_of_mem c.2
       simp only [Block.node.sizeOf_spec, Option.some.sizeOf_spec]
       omega)
    | (obtain ⟨cv, hc⟩ := c
       obtain ⟨itv, hit⟩ := it
       have h2 : sizeOf itv < sizeOf cs := List.sizeOf_lt_of_mem hit
       have h1 : sizeOf cv < sizeOf itv := by
         cases itv with
         | node a2 b2 d2 e2 f2 g2 ch2 =>
           cases ch2 with
           | none => simp [Block.children] at hc
           | some cs2 =>
             simp only [Block.children, Option.getD_some] at hc
             have h3 := List.sizeOf_lt_of_mem hc
             simp only [Block.node.sizeOf_spec, Option.some.sizeOf_spec]
             omega
       simp only [Block.node.sizeOf_spec, Option.some.sizeOf_spec]
       omega)

/-- `parseCommentContent` (work-items.ts lines 317-321): join the rendered
top-level blocks with newlines, then JS-trim; a missing / non-array content
yields `""`. -/
def parseCommentContent : Option (List Block) → String
  | some bs => trimStr (String.intercalate "\n" (bs.map parseBlockElement))
  | none => ""

/-! ### Lookup tables (work-items.ts lines 5-19, pingcode-client.ts lines 593-598) -/

/-- `STATE_TYPE_MAP` (work-items.ts lines 5-10). -/
def STATE_TYPE_MAP (n : Int) : Option String :=
  if n = 1 then some "待处理"
  else if n = 2 then some "进行中"
  else if n = 3 then some "已完成"
  else if n = 4 then some "已关闭"
  else none

/-- `WORK_ITEM_TYPE_MAP` (work-items.ts lines 13-19). -/
def WORK_ITEM_TYPE_MAP (n : Int) : Option String :=
  if n = 2 then some "需求"
  else if n = 3 then some "用户故事"
  else if n = 4 then some "任务"
  else if n = 5 then some "缺陷"
  else if n = 6 then some "史诗"
  else none

/-- `PRIORITY_MAP` (pingcode-client.ts lines 593-598). -/
def PRIORITY_MAP (s : String) : Option String :=
  if s = "5cb9466afda1ce4ca0090001" then some "紧急"
  else if s = "5cb9466afda1ce4ca0090002" then some "高"
  else if s = "5cb9466afda1ce4ca0090003" then some "中"
  else if s = "5cb9466afda1ce4ca0090004" then some "低"
  else none

/-! ### `formatTimestamp` (work-items.ts lines 22-32)

`new Date(ms).toLocaleString('zh-CN', ...)` formats the normalized
millisecond epoch with the runtime's locale machinery; that formatter is
outside the program, so it is a parameter `fmt` of the embedding.  The
program-side logic — the falsy check and the second/millisecond
disambiguation at the `1e12` threshold — is modelled exactly. -/

def formatTimestamp (fmt : Int → String) (ts : Option Int) : String :=
  match ts with
  | none => ""
  | some t => if t = 0 then "" else fmt (if t > 1000000000000 then t else t * 1000)

/-! ### The raw tracker record (loosely-typed input of `formatWorkItem`) -/

/-- An embedded object carrying display/short names (`item.type`,
`item.state`, `item.assignee`, `item.priority` in object form). -/
structure NameObj where
  display_name : Option String
  name : Option String

structure RawAttachment where
  name : Option String
  filename : Option String
  url : Option String
  download_url : Option String

structure RawComment where
  created_by_name : Option String
  created_at : Option Int
  content : Option (List Block)

/-- The raw work-item payload: every field optional; `type` is a numeric
code or an embedded object, `priority`/`assignee` a string id or an
embedded object. -/
structure RawRecord where
  whole_identifier : Option String
  identifier : Option String
  title : Option String
  type : Option (Int ⊕ NameObj)
  state : Option NameObj
  state_type : Option Int
  priority : Option (String ⊕ NameObj)
  assignee_name : Option String
  assignee : Option (String ⊕ NameObj)
  created_by_name : Option String
  created_at : Option Int
  updated_at : Option Int
  description : Option String
  attachments : Option (List RawAttachment)
  comments : Option (List RawComment)

def emptyRaw : RawRecord :=
  ⟨none, none, none, none, none, none, none, none, none, none, none, none, none, none, none⟩

/-! ### Formatted output structures (work-items.ts lines 54-111) -/

structure FieldData where
  label : String
  value : String

structure AttachmentData where
  name : String
  url : String

structure CommentData where
  author : String
  time : String
  content : String

structure WorkItemData where
  id : FieldData
  title : FieldData
  type : FieldData
  state : FieldData
  priority : FieldData
  assignee : FieldData
  createdBy : FieldData
  createdAt : FieldData
  updatedAt : FieldData
  description : FieldData
  attachments : List AttachmentData
  comments : List CommentData

/-- `formatWorkItem` (work-items.ts lines 116-174). -/
def formatWorkItem (fmt : Int → String) (item : RawRecord) : WorkItemData :=
  let id := jsOrS item.whole_identifier
    (jsOrS item.identifier ("#" ++ jsStr item.identifier))
  let typeName :=
    match item.type with
    | some (.inl n) => jsOrS (WORK_ITEM_TYPE_MAP n) "工作项"
    | some (.inr o) => jsOrS o.display_name (jsOrS o.name "未知")
    | none => "未知"
  let stateName := jsOrS (item.state.bind (·.display_name))
    (jsOrS (item.state.bind (·.name))
      (jsOrS (item.state_type.bind STATE_TYPE_MAP) "未知"))
  let priorityName :=
    match item.priority with
    | none => "未设置"
    | some (.inl s) => if s = "" then "未设置" else jsOrS (PRIORITY_MAP s) "未设置"
    | some (.inr o) => jsOrS o.name "未设置"
  let assigneeName :=
    if strTruthy item.assignee_name then jsStr item.assignee_name
    else
      match item.assignee with
      | some (.inr o) => jsOrS o.display_name (jsOrS o.name "未设置")
      | _ => "未设置"
  let createdByName := jsOrS item.created_by_name ""
  let description :=
    match item.description with
    | some d => if d = "" then "" else stripHtml d
    | none => ""
  let attachments := (item.attachments.getD []).map (fun att =>
    ⟨jsOrS att.name (jsOrS att.filename "附件"),
     jsOrS att.url (jsOrS att.download_url "")⟩)
  let comments := (item.comments.getD []).map (fun c =>
    ⟨jsOrS c.created_by_name "用户",
     formatTimestamp fmt c.created_at,
     parseCommentContent c.content⟩)
  { id := ⟨"编号", id⟩
    title := ⟨"标题", jsOrS item.title ""⟩
    type := ⟨"类型", typeName⟩
    state := ⟨"状态", stateName⟩
    priority := ⟨"优先级", priorityName⟩
    assignee := ⟨"负责人", assigneeName⟩
    createdBy := ⟨"创建人", createdByName⟩
    createdAt := ⟨"创建时间",
      if intTruthy item.created_at then formatTimestamp fmt item.created_at else ""⟩
    updatedAt := ⟨"更新时间",
      if intTruthy item.updated_at then formatTimestamp fmt item.updated_at else ""⟩
    description := ⟨"描述", description⟩
    attachments := attachments
    comments := comments }

/-- `getWorkItemString` (work-items.ts lines 179-224). -/
def getWorkItemString (data : WorkItemData) : String :=
  let lines : List String :=
    ["## " ++ data.id.value ++ " - " ++ data.title.value,
     "",
     "- **" ++ data.type.label ++ "**: " ++ data.type.value,
     "- **" ++ data.state.label ++ "**: " ++ data.state.value,
     "- **" ++ data.priority.label ++ "**: " ++ data.priority.value,
     "- **" ++ data.assignee.label ++ "**: " ++ data.assignee.value]
    ++ (if data.createdBy.value ≠ "" then
          ["- **" ++ data.createdBy.label ++ "**: " ++ data.createdBy.value] else [])
    ++ (if data.createdAt.value ≠ "" then
          ["- **" ++ data.createdAt.label ++ "**: " ++ data.createdAt.value] else [])
    ++ (if data.updatedAt.value ≠ "" then
          ["- **" ++ data.updatedAt.label ++ "**: " ++ data.updatedAt.value] else [])
    ++ (if data.description.value ≠ "" then
          ["", "### " ++ data.description.label, "", data.description.value] else [])
    ++ (if data.attachments.length > 0 then
          ["", "### 附件", ""] ++ data.attachments.map (fun att =>
            if att.url ≠ "" then "- [" ++ att.name ++ "](" ++ att.url ++ ")"
            else "- " ++ att.name)
        else [])
    ++ (if data.comments.length > 0 then
          ["", "### 评论 (" ++ toString data.comments.length ++ ")", ""]
          ++ data.comments.enum.flatMap (fun p =>
            ["**" ++ toString (p.1 + 1) ++ ". " ++ p.2.author ++ "** (" ++ p.2.time ++ "):",
             "> " ++ p.2.content,
             ""])
        else [])
  String.intercalate "\n" lines

/-! ### The directive generator inside `getWorkItem`
(work-items.ts lines 345-470, pure part after the fetch) -/

/-- The commit-type table (work-items.ts lines 348-354). -/
def commitTypeMap (s : String) : Option String :=
  if s = "缺陷" then some "fix"
  else if s = "需求" then some "feat"
  else if s = "用户故事" then some "feat"
  else if s = "任务" then some "chore"
  else if s = "史诗" then some "feat"
  else none

def suggestedCommitMsg (w : WorkItemData) : String :=
  "#" ++ w.id.value ++ " " ++ jsOrS (commitTypeMap w.type.value) "chore" ++ ": " ++ w.title.value

def requiredFirstOutputFor (w : WorkItemData) : String :=
  "🔒 单任务模式：处理 " ++ w.id.value ++ "，完成后立即询问 commit"

/-- The static bug-analysis protocol block (work-items.ts lines 382-435):
the array elements joined by the source with `'\n'`. -/
def bugAnalysisLines : List String :=
  ["",
   "🐛 **[缺陷分析流程 - 强制执行]**",
   "",
   "## 核心原则：证据驱动，禁止假设",
   "",
   "### 第一步：穷举现象 → 提取搜索词",
   "从标题/截图/日志/描述/评论中提取**所有**异常（不能只看最明显的）。",
   "每个现象提取 1-2 个**代码搜索关键词**（函数名、错误信息、变量名等）。",
   "",
   "### 第二步：筛选相关现象",
   "问自己：这个异常**是否会导致**用户最终看到的问题？",
   "- 如果能建立因果链 → 保留，继续分析",
   "- 如果只是时间上巧合 → 标记为\"疑似无关\"，暂时跳过",
   "- 不确定 → 先分析最明显相关的，再回头验证",
   "",
   "### 第三步：定位直接代码",
   "用筛选后的关键词搜索代码，找到**直接产生**该现象的代码行。",
   "搜索范围要足够广，不要局限在你假设的位置。",
   "",
   "### 第四步：向上追溯调用链",
   "从第三步的代码向上追溯：谁调用了它？在什么条件下触发？",
   "直到找到**用户操作**或**外部输入**为止。",
   "",
   "### 第五步：验证因果关系",
   "**关键验证**：这条调用链走到底，是否**真的会产生**用户看到的最终现象？",
   "- 如果是 → 进入修复",
   "- 如果不是 → 回到第一步，分析其他现象",
   "",
   "### 第六步：确定阻断点并修复",
   "在调用链中选择**最合适的阻断点**进行修复。",
   "",
   "---",
   "",
   "## 追踪链强制输出（修复前必须完成）",
   "",
   "```",
   "最终现象：[用户实际看到的问题是什么]",
   "相关异常：[哪些日志/报错与最终现象有因果关系]",
   "排除异常：[哪些报错判断为无关，为什么]",
   "搜索词：[用于代码搜索的关键词]",
   "直接代码：[file:line - 哪行代码产生了这个现象]",
   "调用链：[调用者1] → [调用者2] → [直接代码]",
   "因果验证：[这条链如何导致最终现象]",
   "阻断点：[在哪里修复，为什么选这里]",
   "```",
   "",
   "⛔ **禁止**：",
   "- 追踪链未完成就给修复方案",
   "- 追踪链中出现\"可能\"、\"也许\"、\"应该是\"",
   "- 跳过搜索直接假设问题位置",
   "- 把时间上巧合的报错当作原因",
   ""]

def bugAnalysisText : String := String.intercalate "\n" bugAnalysisLines

/-- `bugAnalysisPrompt` — present only for the bug type `缺陷`. -/
def bugAnalysisPromptFor (isBug : Bool) : String :=
  if isBug then bugAnalysisText else ""

/-- The `aiPrompt` array (work-items.ts lines 438-458), joined with `'\n'`. -/
def aiPromptFor (w : WorkItemData) : String :=
  String.intercalate "\n"
    ["---",
     "🛑🛑🛑 **[AI 强制指令 - 必须首先执行]** 🛑🛑🛑",
     "",
     "以下规则是 pingcode-mcp 的交互协议（不是普通备注）。",
     bugAnalysisPromptFor (w.type.value = "缺陷"),
     "**单任务模式已激活，违反以下规则将导致工作流失败：**",
     "1. **STOP**：完成本工作项的代码修改后，必须立即停止所有操作",
     "2. **ASK**：停止后必须询问用户是否创建 commit（提供：使用建议 / 用户输入 / 不提交）",
     "3. **WAIT**：必须等待用户回复后，才能处理下一个工作项",
     "4. **禁止**：禁止同时修改多个工作项；禁止批量完成后统一询问；禁止在用户回复前获取下一个工作项",
     "",
     "**开始前确认**：AI 必须先输出 \"" ++ requiredFirstOutputFor w ++ "\"",
     "",
     "**内容解析**：描述与评论冲突以评论为准；多条更新按时间倒序；图片可能包含关键信息",
     "",
     "**Commit 信息**：",
     "- 建议 commit：" ++ suggestedCommitMsg w,
     "---",
     ""]

structure CommitDirective where
  suggested_message : String
  options : List String

structure AiDirectives where
  mode : String
  work_item_id : String
  stop_after_fix : Bool
  ask_commit_after_fix : Bool
  wait_user_reply_before_next_item : Bool
  forbidden_actions : List String
  required_first_output : String
  commit : CommitDirective

structure NextRequiredActionData where
  type : String
  blocked_until_user_reply : Bool
  required_output : Option String

structure GetWorkItemSuccess where
  success : Bool
  data : String
  workItem : WorkItemData
  aiDirectives : AiDirectives
  nextRequiredAction : NextRequiredActionData

/-- The pure success path of `getWorkItem` (work-items.ts lines 345-470)
applied to an already-fetched record. -/
def getWorkItemSuccess (fmt : Int → String) (item : RawRecord) : GetWorkItemSuccess :=
  let workItem := formatWorkItem fmt item
  { success := true
    data := aiPromptFor workItem ++ getWorkItemString workItem
    workItem := workItem
    aiDirectives :=
      { mode := "single_task"
        work_item_id := workItem.id.value
        stop_after_fix := true
        ask_commit_after_fix := true
        wait_user_reply_before_next_item := true
        forbidden_actions :=
          ["get_other_work_item_before_commit_decision",
           "batch_fetch_multiple_work_items_in_parallel",
           "modify_multiple_work_items"]
        required_first_output := requiredFirstOutputFor workItem
        commit :=
          { suggested_message := suggestedCommitMsg workItem
            options := ["use_suggested", "user_provided", "skip"] } }
    nextRequiredAction :=
      { type := "announce_single_task_mode"
        blocked_until_user_reply := false
        required_output := some (requiredFirstOutputFor workItem) } }

/-! ### Concrete records for the end-to-end claims -/

/-- A bug-typed record: raw numeric type 5, identifier `LFY-42`,
title `crash on save`. -/
def bugRaw : RawRecord :=
  { emptyRaw with
    identifier := some "LFY-42"
    title := some "crash on save"
    type := some (.inl 5) }

/-- A task-typed record (raw numeric type 4): resolved label is not the
bug label. -/
def taskRaw : RawRecord :=
  { emptyRaw with
    identifier := some "LFY-43"
    title := some "tidy up"
    type := some (.inl 4) }

/-- Substring test: does `pat` occur as a contiguous run inside `l`? -/
def hasSub (pat : List Char) : List Char → Bool
  | [] => lpre pat []
  | c :: r => lpre pat (c :: r) || hasSub pat r

/-- A link span with one plain-text child and a url, as it appears inside a
list item. -/
def linkSpanDemo : Block :=
  .node (some "link") none (some "http://x") none none none
    (some [.node none (some "click") none none none none none])

/-- A list-item block whose only child is `linkSpanDemo`. -/
def listItemDemo : Block :=
  .node (some "list-item") none none none none none (some [linkSpanDemo])

/-- A record whose priority is the urgent priority id. -/
def prioUrgentRaw : RawRecord :=
  { emptyRaw with priority := some (.inl "5cb9466afda1ce4ca0090001") }

/-- A record whose priority is an id outside the table, with no embedded
name field. -/
def prioUnknownRaw : RawRecord :=
  { emptyRaw with priority := some (.inl "ffffffffffffffffffffffff") }

/-! ### Lemmas about the sanitizer scanners -/

theorem scanGo_nil (f : List Char → Option (Nat × List Char)) (n : Nat) :
    scanGo f n [] = [] := by
  cases n <;> rfl

/-- A scanner whose matcher never fires at a character other than `a` is the
identity on inputs not containing `a` (for any fuel). -/
theorem scanGo_id (f : List Char → Option (Nat × List Char)) (a : Char)
    (hf : ∀ c r, c ≠ a → f (c :: r) = none) :
    ∀ (n : Nat) (l : List Char), a ∉ l → scanGo f n l = l := by
  intro n
  induction n with
  | zero => intro l _; rfl
  | succ n ih =>
    intro l hl
    cases l with
    | nil => rfl
    | cons c r =>
      have hc : c ≠ a := fun h => hl (h ▸ List.mem_cons_self c r)
      rw [scanGo, hf c r hc]
      exact congrArg (c :: ·) (ih r (fun h => hl (List.mem_cons_of_mem c h)))

theorem matchImg_ne {c : Char} (h : c ≠ '<') (r : List Char) : matchImg (c :: r) = none := by
  match r with
  | [] => rfl
  | [_] => rfl
  | [_, _] => rfl
  | _ :: _ :: _ :: _ => simp [matchImg, h]

theorem matchBr_ne {c : Char} (h : c ≠ '<') (r : List Char) : matchBr (c :: r) = none := by
  match r with
  | [] => rfl
  | [_] => rfl
  | _ :: _ :: _ => simp [matchBr, h]

theorem matchPc_ne {c : Char} (h : c ≠ '<') (r : List Char) : matchPc (c :: r) = none := by
  match r with
  | [] => rfl
  | [_] => rfl
  | [_, _] => rfl
  | _ :: _ :: _ :: _ => simp [matchPc, h]

theorem matchTag_ne {c : Char} (h : c ≠ '<') (r : List Char) : matchTag (c :: r) = none := by
  simp [matchTag, h]

theorem matchStr_ne {p c : Char} (ps rep : List Char) (h : c ≠ p) (r : List Char) :
    matchStr (p :: ps) rep (c :: r) = none := by
  simp [matchStr, lpre, Ne.symm h]

theorem matchNl3_ne {c : Char} (h : c ≠ '\n') (r : List Char) : matchNl3 (c :: r) = none := by
  match r with
  | [] => rfl
  | [_] => rfl
  | _ :: _ :: _ => simp [matchNl3, h]

theorem imgPass_id {l : List Char} (h : '<' ∉ l) : imgPass l = l :=
  scanGo_id _ '<' (fun _ r hc => matchImg_ne hc r) _ l h

theorem brPass_id {l : List Char} (h : '<' ∉ l) : brPass l = l :=
  scanGo_id _ '<' (fun _ r hc => matchBr_ne hc r) _ l h

theorem pClosePass_id {l : List Char} (h : '<' ∉ l) : pClosePass l = l :=
  scanGo_id _ '<' (fun _ r hc => matchPc_ne hc r) _ l h

theorem tagPass_id {l : List Char} (h : '<' ∉ l) : tagPass l = l :=
  scanGo_id _ '<' (fun _ r hc => matchTag_ne hc r) _ l h

theorem entPass_id (pat rep : String) (ps : List Char) (hp : pat.data = '&' :: ps)
    {l : List Char} (h : '&' ∉ l) : entPass pat rep l = l := by
  refine scanGo_id _ '&' (fun c r hc => ?_) _ l h
  rw [hp]
  exact matchStr_ne ps rep.data hc r

/-! ### Lemmas about the newline-collapsing pass -/

theorem countNL_drop_head (l : List Char) : (List.drop (countNL l) l).head? ≠ some '\n' := by
  induction l with
  | nil => simp
  | cons c r ih =>
    by_cases hc : c = '\n'
    · subst hc
      simpa [countNL, List.drop_succ_cons] using ih
    · simp [countNL, hc]

theorem matchNl3_eq_some {l : List Char} {k : Nat} {rep : List Char}
    (h : matchNl3 l = some (k, rep)) :
    ∃ rest, l = '\n' :: '\n' :: '\n' :: rest ∧ k = 3 + countNL rest ∧ rep = ['\n', '\n'] := by
  match l with
  | [] => simp [matchNl3] at h
  | [_] => simp [matchNl3] at h
  | [_, _] => simp [matchNl3] at h
  | a :: b :: c :: rest =>
    by_cases hall : a = '\n' ∧ b = '\n' ∧ c = '\n'
    · obtain ⟨h1, h2, h3⟩ := hall
      subst h1; subst h2; subst h3
      rw [matchNl3, if_pos ⟨rfl, rfl, rfl⟩] at h
      obtain ⟨hk, hrep⟩ := Prod.mk.injEq .. ▸ Option.some.injEq .. ▸ h
      exact ⟨rest, rfl, by injection h with h'; cases h'; exact ⟨rfl, rfl⟩⟩
    · rw [matchNl3, if_neg hall] at h
      cases h

theorem hasTriple_cons_ne {c : Char} (hc : c ≠ '\n') {t : List Char}
    (ht : hasTriple t = false) : hasTriple (c :: t) = false := by
  match t with
  | [] => rfl
  | [_] => rfl
  | a :: b :: r => simp_all [hasTriple]

theorem hasTriple_cons_head_ne {t : List Char} (h2 : t.head? ≠ some '\n')
    (ht : hasTriple t = false) (c : Char) : hasTriple (c :: t) = false := by
  match t with
  | [] => rfl
  | [a] => rfl
  | a :: b :: r =>
    have ha : a ≠ '\n' := by simpa using h2
    simp_all [hasTriple]

theorem hasTriple_nlnl {t : List Char} (h2 : t.head? ≠ some '\n')
    (ht : hasTriple t = false) : hasTriple ('\n' :: '\n' :: t) = false := by
  match t with
  | [] => rfl
  | a :: r =>
    have ha : a ≠ '\n' := by simpa using h2
    have h1 : hasTriple ('\n' :: a :: r) = false := hasTriple_cons_head_ne h2 ht '\n'
    simp_all [hasTriple]

theorem hasTriple_of_cons {c : Char} {t : List Char} (h : hasTriple (c :: t) = false) :
    hasTriple t = false := by
  match t with
  | [] => rfl
  | [_] => rfl
  | a :: b :: r =>
    rw [hasTriple, Bool.or_eq_false_iff] at h
    exact h.2

theorem hasTriple_append_right {x y : List Char} (h : hasTriple (x ++ y) = false) :
    hasTriple y = false := by
  induction x with
  | nil => exact h
  | cons c x ih => exact ih (hasTriple_of_cons h)

theorem hasTriple_append_left {x y : List Char} (h : hasTriple (x ++ y) = false) :
    hasTriple x = false := by
  induction x with
  | nil => rfl
  | cons c x ih =>
    have hx : hasTriple x = false := ih (hasTriple_of_cons h)
    match x, hx, h with
    | [], _, _ => rfl
    | [a], _, _ => rfl
    | a :: b :: r, hx, h =>
      rw [List.cons_append, List.cons_append, List.cons_append, hasTriple,
        Bool.or_eq_false_iff] at h
      rw [hasTriple, Bool.or_eq_false_iff]
      exact ⟨h.1, hx⟩

theorem scanGo_nl3_head (n : Nat) (l : List Char) :
    (scanGo matchNl3 n l).head? = l.head? := by
  cases n with
  | zero => rfl
  | succ n =>
    cases l with
    | nil => rfl
    | cons c r =>
      cases hm : matchNl3 (c :: r) with
      | none => simp [scanGo, hm]
      | some kr =>
        obtain ⟨k, rep⟩ := kr
        obtain ⟨rest, hl, hk, hrep⟩ := matchNl3_eq_some hm
        subst hrep
        have hc : c = '\n' := by injection hl
        subst hc
        simp [scanGo, hm]

theorem matchNl3_none_2nl {r2 : List Char} (hm : matchNl3 ('\n' :: '\n' :: r2) = none) :
    r2.head? ≠ some '\n' := by
  match r2 with
  | [] => simp
  | b :: r3 =>
    intro hb
    simp only [List.head?_cons, Option.some.injEq] at hb
    subst hb
    rw [matchNl3, if_pos ⟨rfl, rfl, rfl⟩] at hm
    cases hm

theorem scanGo_nl3_noTriple (n : Nat) :
    ∀ (l : List Char), l.length ≤ n → hasTriple (scanGo matchNl3 n l) = false := by
  induction n using Nat.strong_induction_on with
  | _ n ih =>
    intro l hl
    match n, l with
    | _, [] => rw [scanGo_nil]; rfl
    | 0, c :: r => simp at hl
    | n + 1, c :: r =>
      have ihn := ih n (Nat.lt_succ_self n)
      cases hm : matchNl3 (c :: r) with
      | some kr =>
        obtain ⟨k, rep⟩ := kr
        obtain ⟨rest, hl3, hk, hrep⟩ := matchNl3_eq_some hm
        subst hrep hk
        simp only [scanGo, hm]
        have hdrop : List.drop (3 + countNL rest) (c :: r) = List.drop (countNL rest) rest := by
          rw [hl3, show 3 + countNL rest = countNL rest + 3 from Nat.add_comm _ _,
            List.drop_succ_cons, List.drop_succ_cons, List.drop_succ_cons]
        rw [hdrop]
        have hlen : (List.drop (countNL rest) rest).length ≤ n := by
          have h1 : (c :: r).length = 3 + rest.length := by rw [hl3]; simp; omega
          have h2 := List.length_drop (countNL rest) rest
          simp only [List.length_cons] at h1 hl
          omega
        have hS := ihn _ hlen
        have hSh := scanGo_nl3_head n (List.drop (countNL rest) rest)
        exact @hasTriple_nlnl (scanGo matchNl3 n (List.drop (countNL rest) rest))
          (by rw [hSh]; exact countNL_drop_head rest) hS
      | none =>
        simp only [scanGo, hm]
        have hrlen : r.length ≤ n := by simpa using hl
        have hr := ihn r hrlen
        have hrh := scanGo_nl3_head n r
        by_cases hc : c = '\n'
        · subst hc
          match r, hm, hrlen, hr, hrh with
          | [], _, _, _, _ => rw [scanGo_nil]; rfl
          | a :: r2, hm, hrlen, hr, hrh =>
            by_cases ha : a = '\n'
            · subst ha
              have hr2 : r2.head? ≠ some '\n' := matchNl3_none_2nl hm
              match n, hrlen with
              | n1 + 1, hrlen =>
                have hm2 : matchNl3 ('\n' :: r2) = none := by
                  match r2, hr2 with
                  | [], _ => rfl
                  | b :: r3, hr2 =>
                    have hb : b ≠ '\n' := by simpa using hr2
                    match r3 with
                    | [] => rfl
                    | _ :: _ => simp [matchNl3, hb]
                simp only [scanGo, hm2]
                have hS2 : hasTriple (scanGo matchNl3 n1 r2) = false :=
                  ih n1 (by omega) r2 (by simp at hrlen; omega)
                have hS2h := scanGo_nl3_head n1 r2
                exact @hasTriple_nlnl (scanGo matchNl3 n1 r2)
                  (by rw [hS2h]; exact hr2) hS2
            · exact hasTriple_cons_head_ne (by rw [hrh]; simpa using ha) hr '\n'
        · exact hasTriple_cons_ne hc hr

theorem matchNl3_none_of_noTriple {l : List Char} (h : hasTriple l = false) :
    matchNl3 l = none := by
  match l with
  | [] => rfl
  | [_] => rfl
  | [_, _] => rfl
  | a :: b :: c :: r =>
    rw [hasTriple, Bool.or_eq_false_iff] at h
    rw [matchNl3, if_neg]
    intro ⟨h1, h2, h3⟩
    subst h1; subst h2; subst h3
    simp at h

theorem scanGo_nl3_id (n : Nat) : ∀ {l : List Char}, hasTriple l = false →
    scanGo matchNl3 n l = l := by
  induction n with
  | zero => intro l _; rfl
  | succ n ih =>
    intro l hl
    cases l with
    | nil => rfl
    | cons c r =>
      simp only [scanGo, matchNl3_none_of_noTriple hl]
      exact congrArg (c :: ·) (ih (hasTriple_of_cons hl))

/-! ### Lemmas about `trim` -/

theorem dropWhile_idem (p : Char → Bool) (l : List Char) :
    List.dropWhile p (List.dropWhile p l) = List.dropWhile p l := by
  induction l with
  | nil => rfl
  | cons c r ih =>
    by_cases hc : p c
    · simp [List.dropWhile_cons, hc, ih]
    · simp [List.dropWhile_cons, hc]

theorem exists_append_dropWhile (p : Char → Bool) (l : List Char) :
    ∃ t, l = t ++ List.dropWhile p l := by
  induction l with
  | nil => exact ⟨[], rfl⟩
  | cons c r ih =>
    by_cases hc : p c
    · obtain ⟨t, ht⟩ := ih
      refine ⟨c :: t, ?_⟩
      simp only [List.dropWhile_cons, hc, if_pos, List.cons_append]
      exact congrArg (c :: ·) ht
    · exact ⟨[], by simp [List.dropWhile_cons, hc]⟩

theorem dropWhile_self_of_append {p : Char → Bool} {w u : List Char}
    (h : List.dropWhile p (w ++ u) = w ++ u) : List.dropWhile p w = w := by
  cases w with
  | nil => rfl
  | cons c w2 =>
    by_cases hc : p c
    · exfalso
      rw [List.cons_append, List.dropWhile_cons, if_pos hc] at h
      have hlen : (List.dropWhile p (w2 ++ u)).length ≤ (w2 ++ u).length :=
        (List.dropWhile_suffix p).length_le
      have := congrArg List.length h
      simp at this hlen
      omega
    · simp [List.dropWhile_cons, hc]

theorem exists_trimRight_append (l : List Char) : ∃ u, l = trimRight l ++ u := by
  obtain ⟨t, ht⟩ := exists_append_dropWhile isJsSpace l.reverse
  refine ⟨t.reverse, ?_⟩
  conv_lhs => rw [← List.reverse_reverse l, ht]
  simp [trimRight, List.reverse_append]

theorem trimRight_idem (l : List Char) : trimRight (trimRight l) = trimRight l := by
  simp [trimRight, List.reverse_reverse, dropWhile_idem]

theorem trimLeft_trimRight_trimLeft (l : List Char) :
    trimLeft (trimRight (trimLeft l)) = trimRight (trimLeft l) := by
  have hvv : List.dropWhile isJsSpace (trimLeft l) = trimLeft l := dropWhile_idem isJsSpace l
  obtain ⟨u, hu⟩ := exists_trimRight_append (trimLeft l)
  exact @dropWhile_self_of_append isJsSpace (trimRight (trimLeft l)) u
    (by rw [← hu]; exact hvv)

theorem jsTrim_idem (l : List Char) : jsTrim (jsTrim l) = jsTrim l := by
  unfold jsTrim
  rw [trimLeft_trimRight_trimLeft, trimRight_idem]

theorem hasTriple_jsTrim {l : List Char} (h : hasTriple l = false) :
    hasTriple (jsTrim l) = false := by
  have h1 : hasTriple (trimLeft l) = false := by
    obtain ⟨t, ht⟩ := exists_append_dropWhile isJsSpace l
    have h0 : hasTriple (t ++ List.dropWhile isJsSpace l) = false := by rw [← ht]; exact h
    exact hasTriple_append_right h0
  obtain ⟨u, hu⟩ := exists_trimRight_append (trimLeft l)
  have h2 : hasTriple (trimRight (trimLeft l) ++ u) = false := by rw [← hu]; exact h1
  exact hasTriple_append_left h2

/-! ### Small helper facts -/

theorem jsOrS_self (t : String) : jsOrS (some t) "" = t := by
  by_cases h : t = ""
  · subst h; rfl
  · simp [jsOrS, h]

/-! ### The claims -/

/-- Claim C1: for every acyclic Block tree, whether its nodes carry known
kinds, unknown kinds, or no kind at all (including nodes with neither
recognized kind nor children nor text), the renderer (`parseBlockElement` /
`parseInlineElement` / `parseCommentContent`) terminates and returns a
string, never raising an error.  Totality is witnessed by the functions
being definable as total Lean functions; the final conjuncts evaluate the
degenerate kind-less, child-less, text-less node. -/
theorem claim1_renderer_total :
    (∀ b : Block, ∃ s : String, parseBlockElement b = s) ∧
    (∀ b : Block, ∃ s : String, parseInlineElement b = s) ∧
    (∀ c : Option (List Block), ∃ s : String, parseCommentContent c = s) ∧
    parseBlockElement (.node none none none none none none none) = "" ∧
    parseInlineElement (.node none none none none none none none) = "" := by
  refine ⟨fun b => ⟨_, rfl⟩, fun b => ⟨_, rfl⟩, fun c => ⟨_, rfl⟩, ?_, ?_⟩ <;>
    simp [parseBlockElement, parseInlineElement, strTruthy, jsOrS]

/-- Claim C2: for a record with raw numeric type code 5 (the bug label
`缺陷`), identifier `LFY-42` and title `crash on save`, the success payload's
`data` string contains the static bug-analysis protocol text in the
directive block placed before the formatted record, and the suggested commit
message in the directives is exactly `#LFY-42 fix: crash on save`; for a
record whose resolved type label is not the bug label, the bug-analysis
protocol text does not occur in `data`. -/
theorem claim2_bug_directives (fmt : Int → String) :
    (∃ pre mid : String,
      (getWorkItemSuccess fmt bugRaw).data =
        pre ++ bugAnalysisText ++ mid ++ getWorkItemString (formatWorkItem fmt bugRaw)) ∧
    (getWorkItemSuccess fmt bugRaw).aiDirectives.commit.suggested_message =
      "#LFY-42 fix: crash on save" ∧
    hasSub bugAnalysisText.data (getWorkItemSuccess fmt taskRaw).data.data = false := by
  refine ⟨⟨String.intercalate "\n"
      ["---",
       "🛑🛑🛑 **[AI 强制指令 - 必须首先执行]** 🛑🛑🛑",
       "",
       "以下规则是 pingcode-mcp 的交互协议（不是普通备注）。"] ++ "\n",
    "\n" ++ String.intercalate "\n"
      ["**单任务模式已激活，违反以下规则将导致工作流失败：**",
       "1. **STOP**：完成本工作项的代码修改后，必须立即停止所有操作",
       "2. **ASK**：停止后必须询问用户是否创建 commit（提供：使用建议 / 用户输入 / 不提交）",
       "3. **WAIT**：必须等待用户回复后，才能处理下一个工作项",
       "4. **禁止**：禁止同时修改多个工作项；禁止批量完成后统一询问；禁止在用户回复前获取下一个工作项",
       "",
       "**开始前确认**：AI 必须先输出 \"🔒 单任务模式：处理 LFY-42，完成后立即询问 commit\"",
       "",
       "**内容解析**：描述与评论冲突以评论为准；多条更新按时间倒序；图片可能包含关键信息",
       "",
       "**Commit 信息**：",
       "- 建议 commit：#LFY-42 fix: crash on save",
       "---",
       ""], rfl⟩, rfl, ?_⟩
  have h : (getWorkItemSuccess fmt taskRaw).data =
      (getWorkItemSuccess (fun _ => "") taskRaw).data := rfl
  rw [h]
  decide

/-- Claim C3 counterexample: `stripHtml` is not idempotent.  Sanitizing
`&lt;b&gt;` yields `<b>`; sanitizing that output again strips the
reintroduced tag and yields `""`. -/
theorem claim3_stripHtml_not_idempotent :
    stripHtml (stripHtml "&lt;b&gt;") ≠ stripHtml "&lt;b&gt;" := by decide

/-- Claim C3 (amended): `stripHtml` is idempotent on every input whose
sanitized output contains neither `<` nor `&` — entity decoding can
reintroduce those two characters and is the only source of
non-idempotence; the newline-collapsing and trimming passes are always
idempotent on sanitizer output. -/
theorem claim3_stripHtml_idempotent_amended (s : String)
    (h1 : '<' ∉ (stripHtml s).data) (h2 : '&' ∉ (stripHtml s).data) :
    stripHtml (stripHtml s) = stripHtml s := by
  by_cases hs : s = ""
  · subst hs; rfl
  · have htd : (stripHtml s).data =
        jsTrim (collapseNl (entPass "&amp;" "&" (entPass "&gt;" ">" (entPass "&lt;" "<"
          (entPass "&nbsp;" " " (tagPass (pClosePass (brPass (imgPass s.data))))))))) := by
      simp only [stripHtml, if_neg hs]
    set t := stripHtml s with htdef
    by_cases ht : t = ""
    · rw [ht]; rfl
    · have hnt : hasTriple t.data = false := by
        rw [htd]
        exact hasTriple_jsTrim (scanGo_nl3_noTriple _ _ (Nat.le_refl _))
      have hcoll : collapseNl t.data = t.data := scanGo_nl3_id _ hnt
      have hjt : jsTrim t.data = t.data := by
        conv_lhs => rw [htd]
        rw [jsTrim_idem, ← htd]
      have houter : stripHtml t =
          ⟨jsTrim (collapseNl (entPass "&amp;" "&" (entPass "&gt;" ">" (entPass "&lt;" "<"
            (entPass "&nbsp;" " " (tagPass (pClosePass (brPass (imgPass t.data)))))))))⟩ := by
        simp only [stripHtml, if_neg ht]
      rw [houter, imgPass_id h1, brPass_id h1, pClosePass_id h1, tagPass_id h1,
        entPass_id "&nbsp;" " " _ rfl h2, entPass_id "&lt;" "<" _ rfl h2,
        entPass_id "&gt;" ">" _ rfl h2, entPass_id "&amp;" "&" _ rfl h2,
        hcoll, hjt]

/-- Witness for the amended claim C3 at the concrete input `" a  b "`. -/
theorem claim3_stripHtml_idempotent_amended_witness :
    stripHtml (stripHtml " a  b ") = stripHtml " a  b " :=
  claim3_stripHtml_idempotent_amended " a  b " (by decide) (by decide)

/-- Claim C4 counterexample: a link span appearing as a child of a
list-item does **not** render as `[click](http://x)` — the list-item case
hands every child to `parseBlockElement`, whose switch has no `link` case,
so the link falls into the unknown-kind fallback and renders as the joined
text of its children, `"click"`. -/
theorem claim4_link_in_list_item_counterexample :
    parseBlockElement listItemDemo = "click" ∧
    parseBlockElement listItemDemo ≠ "[click](http://x)" := by
  have h : parseBlockElement listItemDemo = "click" := by
    simp [listItemDemo, linkSpanDemo, parseBlockElement, parseInlineElement,
      strTruthy, jsOrS, String.join]
  exact ⟨h, by rw [h]; decide⟩

/-- Claim C4 (amended): a list-item block concatenates its rendered
children with no separator, delegating every child to the block renderer
`parseBlockElement` regardless of the child's declared kind; a link span
child therefore goes through the unknown-kind fallback and renders as the
joined text of its children (no brackets, no url). -/
theorem claim4_list_item_amended :
    (∀ (tx url lg ct dn : Option String) (cs : List Block),
      parseBlockElement (.node (some "list-item") tx url lg ct dn (some cs)) =
        String.join (cs.map parseBlockElement)) ∧
    (∀ (tx url lg ct dn : Option String) (ts : List String),
      parseBlockElement (.node (some "link") tx url lg ct dn
        (some (ts.map (fun t => Block.node none (some t) none none none none none)))) =
        String.join ts) := by
  constructor
  · intro tx url lg ct dn cs
    simp [parseBlockElement, strTruthy]
  · intro tx url lg ct dn ts
    rw [show parseBlockElement (.node (some "link") tx url lg ct dn
        (some (ts.map (fun t => Block.node none (some t) none none none none none)))) =
        String.join ((ts.map (fun t => Block.node none (some t) none none none none none)).map
          parseInlineElement) from by simp [parseBlockElement, strTruthy]]
    rw [List.map_map]
    congr 1
    conv_rhs => rw [← List.map_id ts]
    exact List.map_congr_left (fun a _ => by simp [parseInlineElement, strTruthy, jsOrS_self])

/-- Claim C5 counterexample: for a record with no identifier fields at all,
the identifier FieldEntry's value is the string `#undefined` — a string (as
the invariant requires), but neither the empty string nor one of the
sentinels `未设置`/`未知`: the template literal interpolates the absent
identifier as the text `undefined`. -/
theorem claim5_id_undefined_counterexample :
    (formatWorkItem (fun _ => "") emptyRaw).id.value = "#undefined" ∧
    (formatWorkItem (fun _ => "") emptyRaw).id.value ≠ "" ∧
    (formatWorkItem (fun _ => "") emptyRaw).id.value ≠ "未设置" ∧
    (formatWorkItem (fun _ => "") emptyRaw).id.value ≠ "未知" := by
  refine ⟨rfl, by decide, by decide, by decide⟩

/-- Claim C5 (amended): `formatWorkItem` is total (never throws) and every
FieldEntry value is a string, never null/undefined; absent data renders as
the empty string or a sentinel (`未设置`/`未知`) for every field except the
identifier, which renders as `#undefined` when both identifier fields are
absent. -/
theorem claim5_field_values_amended :
    (∀ (fmt : Int → String) (item : RawRecord), ∃ d : WorkItemData, formatWorkItem fmt item = d) ∧
    (∀ fmt : Int → String,
      (formatWorkItem fmt emptyRaw).id.value = "#undefined" ∧
      (formatWorkItem fmt emptyRaw).title.value = "" ∧
      (formatWorkItem fmt emptyRaw).type.value = "未知" ∧
      (formatWorkItem fmt emptyRaw).state.value = "未知" ∧
      (formatWorkItem fmt emptyRaw).priority.value = "未设置" ∧
      (formatWorkItem fmt emptyRaw).assignee.value = "未设置" ∧
      (formatWorkItem fmt emptyRaw).createdBy.value = "" ∧
      (formatWorkItem fmt emptyRaw).createdAt.value = "" ∧
      (formatWorkItem fmt emptyRaw).updatedAt.value = "" ∧
      (formatWorkItem fmt emptyRaw).description.value = "") :=
  ⟨fun fmt item => ⟨_, rfl⟩,
   fun fmt => ⟨rfl, rfl, rfl, rfl, rfl, rfl, rfl, rfl, rfl, rfl⟩⟩

/-- Claim C6: the formatting / rendering / projection pipeline is
deterministic — equal raw records (under the same formatter and lookup
tables) yield equal `WorkItemData` and equal markdown strings. -/
theorem claim6_deterministic (fmt : Int → String) (r1 r2 : RawRecord) (h : r1 = r2) :
    formatWorkItem fmt r1 = formatWorkItem fmt r2 ∧
    getWorkItemString (formatWorkItem fmt r1) = getWorkItemString (formatWorkItem fmt r2) := by
  subst h
  exact ⟨rfl, rfl⟩

/-- Witness for claim C6 at a concrete formatter and record. -/
theorem claim6_deterministic_witness :
    formatWorkItem (fun _ => "") emptyRaw = formatWorkItem (fun _ => "") emptyRaw ∧
    getWorkItemString (formatWorkItem (fun _ => "") emptyRaw) =
      getWorkItemString (formatWorkItem (fun _ => "") emptyRaw) :=
  claim6_deterministic (fun _ => "") emptyRaw emptyRaw rfl

/-- Claim C7: `formatTimestamp` accepts second and millisecond epochs,
disambiguated by the `1e12` magnitude threshold: `1700000000` (seconds) and
`1700000000000` (milliseconds) format identically for every formatter, and
an absent or zero (falsy) timestamp yields the empty string. -/
theorem claim7_timestamp (fmt : Int → String) :
    formatTimestamp fmt (some 1700000000) = formatTimestamp fmt (some 1700000000000) ∧
    formatTimestamp fmt none = "" ∧
    formatTimestamp fmt (some 0) = "" :=
  ⟨rfl, rfl, rfl⟩

/-- Claim C8: the priority id `5cb9466afda1ce4ca0090001` resolves to the
urgent label `紧急` through the fixed four-entry table; an id outside the
table with no embedded name resolves to the `未设置` sentinel, as does an
absent priority. -/
theorem claim8_priority (fmt : Int → String) :
    (formatWorkItem fmt prioUrgentRaw).priority.value = "紧急" ∧
    (formatWorkItem fmt prioUnknownRaw).priority.value = "未设置" ∧
    (formatWorkItem fmt emptyRaw).priority.value = "未设置" :=
  ⟨rfl, rfl, rfl⟩

/-- Claim C9: a code block renders as a three-part fenced block — an opening
fence carrying the language tag (empty if absent), the raw content verbatim,
and a closing fence; in particular `{language:"go", content:"x:=1"}` renders
to ```` ```go\nx:=1\n``` ````. -/
theorem claim9_code_block :
    (∀ (tx url lg ct dn : Option String) (ch : Option (List Block)),
      parseBlockElement (.node (some "code") tx url lg ct dn ch) =
        "```" ++ jsOrS lg "" ++ "\n" ++ jsOrS ct "" ++ "\n```") ∧
    parseBlockElement (.node (some "code") none none (some "go") (some "x:=1") none none) =
      "```go\nx:=1\n```" := by
  constructor
  · intro tx url lg ct dn ch
    cases ch <;> simp [parseBlockElement, strTruthy]
  · simp [parseBlockElement, strTruthy, jsOrS]

/-- Claim C10: a blockquote with a present-but-empty children list renders
to the two-character string `"> "`, while a blockquote with the children
field absent renders to the empty string. -/
theorem claim10_blockquote_edge :
    parseBlockElement (.node (some "blockquote") none none none none none (some [])) = "> " ∧
    parseBlockElement (.node (some "blockquote") none none none none none none) = "" := by
  constructor
  · simp [parseBlockElement, strTruthy]
    decide
  · simp [parseBlockElement, strTruthy]

end PingcodeMcp
